import Mathlib

/-!
Verification of the Baral Photo Studio client-side behavior layer.

The development shallowly embeds the two rule-bearing components of the
repository: the booking-form validator with its submission sequencer
(src/unnamed/part_000, the v2.0.0 script, plus the two variants living in
src/js/main.js) and the carousel paging logic (src/js/main.js).

Strings are modelled as `List Char`; JavaScript `String.prototype.trim`,
the `\s`/`\d` regex classes and the two validation regexes are translated
character by character.  Wall-clock time is modelled by an explicit
environment carrying the current UTC time in minutes and the local UTC
offset in minutes (JavaScript's `-Date.prototype.getTimezoneOffset()`,
taken as a fixed offset).  `new Date("YYYY-MM-DD")` parses an ISO
date-only string at UTC midnight; this is modelled by `parseISODate`,
returning the civil day number, with `none` standing for an Invalid Date
(whose comparisons are all false in JavaScript).
-/

namespace Baral

/-- JavaScript strings, modelled as lists of characters. -/
abbrev Str := List Char

/-- The character class matched by the regex `\s` and removed by
`String.prototype.trim`: ASCII whitespace plus the common Unicode
whitespace code points. -/
def isJsWs (c : Char) : Bool :=
  c = ' ' || c = '\t' || c = '\n' || c = '\r' ||
  c = '\x0b' || c = '\x0c' || c = '\u00A0' ||
  c = '\u2028' || c = '\u2029' || c = '\uFEFF'

/-- `String.prototype.trim`: drop leading and trailing whitespace. -/
def jsTrim (l : Str) : Str :=
  ((List.dropWhile isJsWs ((List.dropWhile isJsWs l).reverse)).reverse)

/-- A character admitted on either side of the `@` by the e-mail regex
`[^\s@]`: anything that is neither whitespace nor `@`. -/
def emailChar (c : Char) : Bool :=
  !(isJsWs c) && !(c = '@')

/-- Split a list at the first occurrence of the character `a`,
returning the parts before and after it. -/
def splitAtFirst (a : Char) : Str → Option (Str × Str)
  | [] => none
  | c :: cs =>
    if c = a then some ([], cs)
    else
      match splitAtFirst a cs with
      | none => none
      | some p => some (c :: p.1, p.2)

/-- Is there a `.` somewhere before the final character? -/
def dotNotLast : Str → Bool
  | [] => false
  | [_] => false
  | c :: rest => (c = '.') || dotNotLast rest

/-- `isValidEmail` (part_000 lines 120-123): the full-string regex
`/^[^\s@]+@[^\s@]+\.[^\s@]+$/`.  A string matches exactly when it splits
at its first `@` into a nonempty local part and a domain, all of whose
characters avoid whitespace and `@`, the domain containing a `.` that is
neither its first nor its last character. -/
def isValidEmail (e : Str) : Bool :=
  match splitAtFirst '@' e with
  | none => false
  | some (loc, dom) =>
    !loc.isEmpty && loc.all emailChar && dom.all emailChar &&
    (match dom with
     | [] => false
     | _ :: rest => dotNotLast rest)

/-- `isValidPhone` (part_000 lines 130-133):
`phone.replace(/\D/g, '').length >= 10`. -/
def isValidPhone (p : Str) : Bool :=
  decide (10 ≤ (p.filter Char.isDigit).length)

/-- The reason codes of the error taxonomy (each corresponds to one
error message string in the source). -/
inductive Reason where
  | Spam
  | MissingField
  | BadEmail
  | BadPhone
  | PastDate
deriving DecidableEq

/-- Result of `validateFormData`: the source's
`{isValid : false, message}` pairs collapsed to their reason codes,
`{isValid : true}` to `Valid`. -/
inductive ValidationResult where
  | Valid
  | Invalid (r : Reason)
deriving DecidableEq

/-- The field-value record collected by `handleFormSubmit`
(part_000 lines 453-461; the raw, untrimmed control values), together
with the honeypot control's value that `validateFormData` reads from the
DOM (`DOM.honeypot.value`). -/
structure BookingFormInput where
  firstName : Str
  lastName : Str
  email : Str
  phone : Str
  date : Str
  serviceType : Str
  message : Str
  honeypotValue : Str
deriving DecidableEq

/-- The required-fields loop of `validateFormData` (part_000 lines
415-421): some field of the six is JS-falsy (empty) or trims to empty. -/
def requiredMissing (x : BookingFormInput) : Bool :=
  [x.firstName, x.lastName, x.email, x.phone, x.date, x.serviceType].any
    (fun v => v.isEmpty || (jsTrim v).isEmpty)

/-- The wall-clock environment: current UTC time in minutes since the
Unix epoch, and the local zone's offset east of UTC in minutes
(JavaScript's `-getTimezoneOffset()`), taken as fixed. -/
structure Env where
  tzOffsetMin : Int
  nowUtcMin : Int
deriving DecidableEq

/-- The local civil day holding the current instant (days since
1970-01-01 of the local calendar date). -/
def localTodayDay (env : Env) : Int :=
  (env.nowUtcMin + env.tzOffsetMin).fdiv 1440

/-- `new Date(); today.setHours(0,0,0,0)` (part_000 lines 435-436):
today's local midnight, as a UTC epoch time in minutes. -/
def localMidnightUtcMin (env : Env) : Int :=
  localTodayDay env * 1440 - env.tzOffsetMin

/-- Proleptic-Gregorian day count since 1970-01-01 of a civil date
(Hinnant's civil-from-days algorithm, floor arithmetic). -/
def daysFromCivil (y m d : Int) : Int :=
  let y' := if m ≤ 2 then y - 1 else y
  let era := y'.fdiv 400
  let yoe := y' - era * 400
  let mp := (m + 9).emod 12
  let doy := (153 * mp + 2).fdiv 5 + d - 1
  let doe := yoe * 365 + yoe.fdiv 4 - yoe.fdiv 100 + doy
  era * 146097 + doe - 719468

/-- Gregorian leap year. -/
def isLeap (y : Nat) : Bool :=
  (y % 4 = 0 && !(y % 100 = 0)) || y % 400 = 0

/-- Days in a month of the Gregorian calendar. -/
def daysInMonth (y m : Nat) : Nat :=
  if m = 2 then (if isLeap y then 29 else 28)
  else if m = 4 || m = 6 || m = 9 || m = 11 then 30
  else 31

/-- Numeric value of a decimal digit character. -/
def digitVal (c : Char) : Nat := c.toNat - 48

/-- `new Date(s)` on the `YYYY-MM-DD` strings produced by a date input:
an in-range ISO date-only string yields its civil day number (the date
at UTC midnight); anything else is an Invalid Date (`none`), all of
whose comparisons are false. -/
def parseISODate : Str → Option Int
  | [y1, y2, y3, y4, '-', m1, m2, '-', d1, d2] =>
    if y1.isDigit && y2.isDigit && y3.isDigit && y4.isDigit &&
       m1.isDigit && m2.isDigit && d1.isDigit && d2.isDigit then
      let y := digitVal y1 * 1000 + digitVal y2 * 100 + digitVal y3 * 10 + digitVal y4
      let m := digitVal m1 * 10 + digitVal m2
      let d := digitVal d1 * 10 + digitVal d2
      if 1 ≤ m && m ≤ 12 && 1 ≤ d && d ≤ daysInMonth y m then
        some (daysFromCivil (y : Int) (m : Int) (d : Int))
      else none
    else none
  | _ => none

/-- The date rule of `validateFormData` (part_000 lines 433-441):
`new Date(data.date) < today` where `today` is local midnight.  An
unparseable date compares as `NaN`, hence is never "past". -/
def dateIsPast (env : Env) (s : Str) : Bool :=
  match parseISODate s with
  | none => false
  | some d => decide (d * 1440 < localMidnightUtcMin env)

/-- `validateFormData` (part_000 lines 409-443): honeypot, required
fields, e-mail shape, phone shape, date-not-past, in that order, each
rule returning immediately on failure. -/
def validateFormData (env : Env) (data : BookingFormInput) : ValidationResult :=
  if ¬ (jsTrim data.honeypotValue).isEmpty then .Invalid .Spam
  else if requiredMissing data then .Invalid .MissingField
  else if !(isValidEmail data.email) then .Invalid .BadEmail
  else if !(isValidPhone data.phone) then .Invalid .BadPhone
  else if dateIsPast env data.date then .Invalid .PastDate
  else .Valid

/-! ## Submission sequencer (part_000, `handleFormSubmit`) -/

/-- The observable side effects of `handleFormSubmit`, in program
order: a status display (`true` = error styling), an awaited delay, the
`form.reset()` call, resetting the date input's `min` attribute, and
scheduling the 5 s status auto-clear. -/
inductive Eff where
  | status (isError : Bool)
  | sleep (ms : Nat)
  | reset
  | setDateMin
  | scheduleClear (ms : Nat)
deriving DecidableEq

/-- `handleFormSubmit` (part_000 lines 449-494) as its effect trace.
An invalid result shows the error status and returns at once; a valid
result shows the sending status, awaits `CONFIG.formSubmitDelay`
(600 ms), shows the success status, resets the form, restores the date
minimum and schedules the 5000 ms status clear.  (The `catch` branch is
dead: the awaited timer promise never rejects.) -/
def handleFormSubmit (env : Env) (x : BookingFormInput) : List Eff :=
  match validateFormData env x with
  | .Invalid _ => [.status true]
  | .Valid =>
    [.status false, .sleep 600, .status false, .reset, .setDateMin,
     .scheduleClear 5000]

/-- The input whose every field is empty: the result of
`form.reset()` on the booking form (all its controls cleared). -/
def blankInput : BookingFormInput :=
  ⟨[], [], [], [], [], [], [], []⟩

/-- The form's field values after running an effect trace: only
`Eff.reset` touches them. -/
def fieldsAfter (x : BookingFormInput) : List Eff → BookingFormInput
  | [] => x
  | .reset :: t => fieldsAfter blankInput t
  | _ :: t => fieldsAfter x t

/-- The sequencer phases of the specification that are observable at
the end of a submit attempt. -/
inductive Phase where
  | Idle
  | Sent
deriving DecidableEq

/-- Reading of the spec's sequencer state off an effect trace: the
`Sent` state is reached exactly when the simulated send completed (the
form was reset); otherwise the sequencer is back in `Idle`. -/
def phaseAfter (t : List Eff) : Phase :=
  if Eff.reset ∈ t then .Sent else .Idle

/-! ## Legacy validator variant (src/js/main.js, first script,
lines 184-227) -/

/-- The character class of the legacy phone regex
`/^[\d\+\-\(\)\s]+$/`. -/
def legacyPhoneCharOk (c : Char) : Bool :=
  c.isDigit || c = '+' || c = '-' || c = '(' || c = ')' || isJsWs c

/-- The legacy submit handler's accumulated `isValid` flag: every
required control trims to nonempty; the e-mail control, when nonempty,
matches the e-mail regex; the phone control, when nonempty, matches the
legacy character-class regex.  There is no honeypot, no date rule and
no digit count. -/
def legacyFormAccepts (required : List Str) (email phone : Str) : Bool :=
  required.all (fun v => !(jsTrim v).isEmpty)
  && (email.isEmpty || isValidEmail email)
  && (phone.isEmpty || phone.all legacyPhoneCharOk)

/-! ## Carousel paging (src/js/main.js, first script) -/

/-- `Math.ceil(carouselItems.length / itemsPerPage)`
(`initCarouselDots`, line 98), over exact rationals. -/
def computePageCount (itemCount itemsPerPage : ℕ) : ℤ :=
  ⌈(itemCount : ℚ) / (itemsPerPage : ℚ)⌉

/-- One page advance of `autoScrollCarousel` (line 150):
`(activeIndex + 1) % dots.length`. -/
def advance (pageCount i : ℕ) : ℕ :=
  (i + 1) % pageCount

/-- `moveCarousel`'s track offset (line 119):
`-(index * (100 / itemsPerPage))`, in percent, over exact rationals. -/
def pageOffsetPercent (pageIndex itemsPerPage : ℕ) : ℚ :=
  -((pageIndex : ℚ) * (100 / (itemsPerPage : ℚ)))

/-! ## Carousel hover / auto-advance timers
(src/js/main.js lines 159-171) -/

/-- Timer state of the auto-advance logic.  `origActive` is the
interval stored in `autoScrollInterval` (the only handle the code ever
keeps); `extraTimers` counts intervals started by `mouseleave`, whose
handles are discarded, so none of them can ever be cleared. -/
structure CarouselTimers where
  hover : Bool
  origActive : Bool
  extraTimers : Nat
deriving DecidableEq

/-- The page-load state: `setInterval(autoScrollCarousel, 5000)` is
running and its handle is stored; the pointer is outside. -/
def carouselInit : CarouselTimers :=
  ⟨false, true, 0⟩

/-- Pointer events on `.carousel-wrapper`. -/
inductive HoverEvent where
  | enter
  | leave
deriving DecidableEq

/-- The `mouseenter`/`mouseleave` handlers: entering runs
`clearInterval(autoScrollInterval)` (clearing only the stored, original
handle); leaving runs `setInterval(autoScrollCarousel, 5000)` without
storing the new handle. -/
def hoverStep (s : CarouselTimers) : HoverEvent → CarouselTimers
  | .enter => { s with hover := true, origActive := false }
  | .leave => { s with hover := false, extraTimers := s.extraTimers + 1 }

/-- Run a sequence of pointer events from a state. -/
def hoverRun (s : CarouselTimers) (es : List HoverEvent) : CarouselTimers :=
  es.foldl hoverStep s

/-- Number of auto-advance intervals currently firing. -/
def activeTimerCount (s : CarouselTimers) : Nat :=
  (if s.origActive then 1 else 0) + s.extraTimers

/-! ## Concrete inputs used by the witnesses -/

/-- A submission every rule accepts: the running example of §8 of the
specification, dated one day after `envBase`'s today. -/
def validBase : BookingFormInput :=
  ⟨"John".toList, "Doe".toList, "a@b.c".toList, "123-456-7890".toList,
   "2024-06-16".toList, "wedding".toList, [], []⟩

/-- A UTC environment (offset 0) whose current instant is
2024-06-15, 12:00 UTC; day 19889 since the epoch. -/
def envBase : Env :=
  ⟨0, 19889 * 1440 + 720⟩

/-! ## Helper lemmas -/

lemma dropWhile_eq_self_of {p : Char → Bool} {l : Str}
    (h : ∀ c ∈ l, p c = false) : l.dropWhile p = l := by
  cases l with
  | nil => rfl
  | cons c cs =>
    have hc := h c (List.mem_cons_self c cs)
    simp [List.dropWhile_cons, hc]

lemma jsTrim_eq_self_of {l : Str}
    (h : ∀ c ∈ l, isJsWs c = false) : jsTrim l = l := by
  simp only [jsTrim]
  rw [dropWhile_eq_self_of h,
      dropWhile_eq_self_of (fun c hc => h c (List.mem_reverse.mp hc)),
      List.reverse_reverse]

lemma splitAtFirst_eq {a : Char} :
    ∀ {l loc dom : Str}, splitAtFirst a l = some (loc, dom) →
      l = loc ++ a :: dom := by
  intro l
  induction l with
  | nil => intro loc dom h; simp [splitAtFirst] at h
  | cons c cs ih =>
    intro loc dom h
    by_cases hca : c = a
    · subst hca
      simp [splitAtFirst] at h
      obtain ⟨rfl, rfl⟩ := h
      simp
    · simp only [splitAtFirst, if_neg hca] at h
      rcases hs : splitAtFirst a cs with _ | ⟨p1, p2⟩
      · rw [hs] at h; simp at h
      · rw [hs] at h
        simp at h
        obtain ⟨rfl, rfl⟩ := h
        simp [ih hs]

lemma email_ws_false {e : Str} {c : Char}
    (hc : c ∈ e) (hw : isJsWs c = true) : isValidEmail e = false := by
  rcases h : splitAtFirst '@' e with _ | ⟨loc, dom⟩
  · simp [isValidEmail, h]
  · have he : e = loc ++ '@' :: dom := splitAtFirst_eq h
    subst he
    rcases List.mem_append.mp hc with hcl | hcr
    · have hall : loc.all emailChar = false := by
        refine Bool.eq_false_iff.mpr fun hallT => ?_
        have := List.all_eq_true.mp hallT c hcl
        simp [emailChar, hw] at this
      simp [isValidEmail, h, hall]
    · rcases List.mem_cons.mp hcr with rfl | hcd
      · exact absurd hw (by decide)
      · have hall : dom.all emailChar = false := by
          refine Bool.eq_false_iff.mpr fun hallT => ?_
          have := List.all_eq_true.mp hallT c hcd
          simp [emailChar, hw] at this
        simp [isValidEmail, h, hall]

/-! ## The claims -/

/-- C1: `validateFormData` evaluates its rules in the fixed order
honeypot, required fields, e-mail format, phone format, date-not-past,
short-circuits at the first violated rule and reports only that rule's
reason code; in particular a honeypot value that is non-empty after
trimming yields `Invalid Spam` whatever the other fields hold. -/
theorem c1_validation_order (env : Env) (x : BookingFormInput) :
    (jsTrim x.honeypotValue ≠ [] → validateFormData env x = .Invalid .Spam)
  ∧ (jsTrim x.honeypotValue = [] → requiredMissing x = true →
      validateFormData env x = .Invalid .MissingField)
  ∧ (jsTrim x.honeypotValue = [] → requiredMissing x = false →
      isValidEmail x.email = false →
      validateFormData env x = .Invalid .BadEmail)
  ∧ (jsTrim x.honeypotValue = [] → requiredMissing x = false →
      isValidEmail x.email = true → isValidPhone x.phone = false →
      validateFormData env x = .Invalid .BadPhone)
  ∧ (jsTrim x.honeypotValue = [] → requiredMissing x = false →
      isValidEmail x.email = true → isValidPhone x.phone = true →
      dateIsPast env x.date = true →
      validateFormData env x = .Invalid .PastDate)
  ∧ (jsTrim x.honeypotValue = [] → requiredMissing x = false →
      isValidEmail x.email = true → isValidPhone x.phone = true →
      dateIsPast env x.date = false →
      validateFormData env x = .Valid) := by
  refine ⟨fun h1 => ?_, fun h1 h2 => ?_, fun h1 h2 h3 => ?_,
    fun h1 h2 h3 h4 => ?_, fun h1 h2 h3 h4 h5 => ?_,
    fun h1 h2 h3 h4 h5 => ?_⟩
  · simp [validateFormData, h1]
  · simp [validateFormData, h1, h2]
  · simp [validateFormData, h1, h2, h3]
  · simp [validateFormData, h1, h2, h3, h4]
  · simp [validateFormData, h1, h2, h3, h4, h5]
  · simp [validateFormData, h1, h2, h3, h4, h5]

/-- C1 witness: a fully valid submission except for the honeypot field
holding `"bot"` is rejected as spam. -/
theorem c1_validation_order_witness :
    validateFormData envBase { validBase with honeypotValue := "bot".toList }
      = .Invalid .Spam :=
  (c1_validation_order envBase
    { validBase with honeypotValue := "bot".toList }).1 (by decide)

/-- C5: with the honeypot empty after trimming and any of the six
required fields empty after trimming, `validateFormData` returns
`Invalid MissingField`, regardless of the remaining fields. -/
theorem c5_missing_required_field (env : Env) (x : BookingFormInput)
    (hhp : jsTrim x.honeypotValue = [])
    (hmiss : jsTrim x.firstName = [] ∨ jsTrim x.lastName = [] ∨
      jsTrim x.email = [] ∨ jsTrim x.phone = [] ∨
      jsTrim x.date = [] ∨ jsTrim x.serviceType = []) :
    validateFormData env x = .Invalid .MissingField := by
  have hr : requiredMissing x = true := by
    rcases hmiss with h | h | h | h | h | h <;> simp [requiredMissing, h]
  simp [validateFormData, hhp, hr]

/-- C5 witness: an otherwise fully valid submission whose first name is
three blanks is rejected as a missing field. -/
theorem c5_missing_required_field_witness :
    validateFormData envBase { validBase with firstName := "   ".toList }
      = .Invalid .MissingField :=
  c5_missing_required_field envBase
    { validBase with firstName := "   ".toList }
    (by decide) (Or.inl (by decide))

/-- C10: in the v2.0.0 script the submit handler collects the raw field
values, the required-field rule trims them, but the e-mail rule runs on
the untrimmed value; an address that is well-formed after trimming yet
carries surrounding whitespace is therefore rejected as `BadEmail`. -/
theorem c10_untrimmed_email (env : Env) (x : BookingFormInput)
    (hhp : jsTrim x.honeypotValue = [])
    (hreq : requiredMissing x = false)
    (hgood : isValidEmail (jsTrim x.email) = true)
    (hws : x.email ≠ jsTrim x.email) :
    validateFormData env x = .Invalid .BadEmail := by
  have hex : ∃ c ∈ x.email, isJsWs c = true := by
    by_contra hno
    push_neg at hno
    simp only [Bool.not_eq_true] at hno
    exact hws (jsTrim_eq_self_of hno).symm
  obtain ⟨c, hc, hw⟩ := hex
  have hbad : isValidEmail x.email = false := email_ws_false hc hw
  simp [validateFormData, hhp, hreq, hbad]

/-- C10 witness: the e-mail `" a@b.c"` (one leading blank, well-formed
core, all other fields valid) is rejected as `BadEmail`. -/
theorem c10_untrimmed_email_witness :
    validateFormData envBase { validBase with email := " a@b.c".toList }
      = .Invalid .BadEmail :=
  c10_untrimmed_email envBase { validBase with email := " a@b.c".toList }
    (by decide) (by decide) (by decide) (by decide)

/-- An environment five hours behind UTC (offset -300 minutes, as in
US Eastern Daylight Time) at the same instant as `envBase`:
2024-06-15, 12:00 UTC, i.e. 07:00 on local day 19889. -/
def c2Env : Env :=
  ⟨-300, 19889 * 1440 + 720⟩

/-- The valid submission of `validBase`, dated on the current local
day of `c2Env` (2024-06-15, "today"). -/
def c2Input : BookingFormInput :=
  { validBase with date := "2024-06-15".toList }

/-- C2 counterexample: in a timezone behind UTC an otherwise valid
submission dated today is rejected as `PastDate` — the claim says it is
accepted.  The code parses the ISO date at UTC midnight and compares it
with today's local midnight, which lies after it whenever the offset is
negative. -/
theorem c2_counterexample :
    parseISODate c2Input.date = some (localTodayDay c2Env)
  ∧ validateFormData c2Env c2Input = .Invalid .PastDate := by
  constructor
  · decide
  · decide

/-- C2 (amended): once honeypot, required-field, e-mail and phone rules
pass and the date field is an in-range ISO date `D`, the validator
returns `Invalid PastDate` exactly when `D`'s UTC midnight lies before
today's local midnight.  Hence any date before today's local day is
rejected for every realistic offset (< 24 h), any date from today on
is accepted when the offset is at or ahead of UTC, but today itself is
rejected whenever the local zone is behind UTC. -/
theorem c2_date_rule (env : Env) (x : BookingFormInput) (D : Int)
    (hhp : jsTrim x.honeypotValue = [])
    (hreq : requiredMissing x = false)
    (hem : isValidEmail x.email = true)
    (hph : isValidPhone x.phone = true)
    (hD : parseISODate x.date = some D) :
    (validateFormData env x = .Invalid .PastDate ↔
      D * 1440 < localMidnightUtcMin env)
  ∧ (validateFormData env x = .Valid ↔
      localMidnightUtcMin env ≤ D * 1440)
  ∧ (D < localTodayDay env → env.tzOffsetMin < 1440 →
      validateFormData env x = .Invalid .PastDate)
  ∧ (localTodayDay env ≤ D → 0 ≤ env.tzOffsetMin →
      validateFormData env x = .Valid)
  ∧ (D = localTodayDay env → env.tzOffsetMin < 0 →
      validateFormData env x = .Invalid .PastDate) := by
  have hv : validateFormData env x =
      if dateIsPast env x.date then .Invalid .PastDate else .Valid := by
    simp [validateFormData, hhp, hreq, hem, hph]
  have hd : dateIsPast env x.date =
      decide (D * 1440 < localMidnightUtcMin env) := by
    simp [dateIsPast, hD]
  have hmid : localMidnightUtcMin env =
      localTodayDay env * 1440 - env.tzOffsetMin := rfl
  by_cases hpast : D * 1440 < localMidnightUtcMin env
  · rw [hv, hd, decide_eq_true hpast]
    refine ⟨by simp [hpast], by simp ; omega, fun _ _ => by simp,
      fun hle htz => absurd hpast (by omega), fun hDL htz => by simp⟩
  · rw [hv, hd, decide_eq_false hpast]
    refine ⟨by simp [hpast], by simp ; omega,
      fun hlt htz => absurd hpast (by omega),
      fun _ _ => by simp,
      fun hDL htz => absurd hpast (by omega)⟩

/-- C2 witness: in the UTC environment `envBase` the valid submission
dated tomorrow (day 19890 ≥ today's day 19889, offset 0 ≥ 0) is
accepted. -/
theorem c2_date_rule_witness :
    validateFormData envBase validBase = .Valid :=
  (c2_date_rule envBase validBase 19890 (by decide) (by decide)
    (by decide) (by decide) (by decide)).2.2.2.1 (by decide) (by decide)

/-- C3 counterexample: the carousel computes
`Math.ceil(carouselItems.length / itemsPerPage)` with no minimum, so an
empty category yields a page count of 0, not the claimed 1. -/
theorem c3_counterexample :
    computePageCount 0 3 = 0 ∧ computePageCount 0 3 ≠ 1 := by
  norm_num [computePageCount]

/-- C3 (amended): for the itemsPerPage values the code uses (1 on
mobile, 3 on desktop), the page count is exactly the ceiling of
itemCount / itemsPerPage — `computePageCount 7 3 = 3` — but there is no
minimum-1 clamp: `computePageCount 0 3 = 0`. -/
theorem c3_page_count (n p : ℕ) (hp : p = 1 ∨ p = 3) :
    computePageCount n p = ((n + p - 1) / p : ℕ)
  ∧ computePageCount 7 3 = 3
  ∧ computePageCount 0 3 = 0 := by
  have h73 : computePageCount 7 3 = 3 := by
    rw [show computePageCount 7 3 = (⌈(7 : ℚ) / 3⌉ : ℤ) from by norm_num [computePageCount]]
    rw [Int.ceil_eq_iff] <;> norm_num
  have h03 : computePageCount 0 3 = 0 := by norm_num [computePageCount]
  refine ⟨?_, h73, h03⟩
  rcases hp with rfl | rfl
  · simp [computePageCount]
  · show (⌈(n : ℚ) / 3⌉ : ℤ) = (((n + 3 - 1) / 3 : ℕ) : ℤ)
    have h3 : (0 : ℚ) < 3 := by norm_num
    have hq1 : (n : ℤ) ≤ (((n + 3 - 1) / 3 : ℕ) : ℤ) * 3 := by omega
    have hq2 : ((((n + 3 - 1) / 3 : ℕ) : ℤ)) * 3 - 3 < (n : ℤ) := by omega
    rw [Int.ceil_eq_iff]
    constructor
    · rw [lt_div_iff₀ h3]
      have hcast : (((((n + 3 - 1) / 3 : ℕ) : ℤ) : ℚ) - 1) * 3 < ((n : ℤ) : ℚ) := by
        rw [sub_mul, one_mul]
        exact_mod_cast hq2
      push_cast at hcast ⊢
      linarith
    · rw [div_le_iff₀ h3]
      have hcast : ((n : ℤ) : ℚ) ≤ ((((n + 3 - 1) / 3 : ℕ) : ℤ) : ℚ) * 3 := by
        exact_mod_cast hq1
      push_cast at hcast ⊢
      linarith

/-- C3 witness: seven items at three per page make three pages. -/
theorem c3_page_count_witness :
    computePageCount 7 3 = ((7 + 3 - 1) / 3 : ℕ) :=
  (c3_page_count 7 3 (Or.inr rfl)).1

/-- The six field values of the legacy booking form filled with the
valid running example, except for the five-digit phone. -/
def c4Required : List Str :=
  ["John".toList, "Doe".toList, "a@b.c".toList, "12345".toList,
   "2024-06-16".toList, "wedding".toList]

/-- C4 counterexample: the legacy variant does not count digits.  The
phone `"12345"` has fewer than ten digits, yet the legacy submit
handler accepts the whole otherwise-valid submission, where the claim
demands an `Invalid BadPhone` rejection from every variant. -/
theorem c4_counterexample :
    (("12345".toList).filter Char.isDigit).length < 10
  ∧ legacyFormAccepts c4Required ("a@b.c".toList) ("12345".toList) = true := by
  constructor
  · decide
  · decide

/-- C4 (amended): for the v2.0.0 `validateFormData`, once the honeypot,
required-field and e-mail rules pass, the result is `Invalid BadPhone`
exactly when the phone holds fewer than ten digit characters.  The
legacy variant is not covered: it only restricts the character set (see
the counterexample). -/
theorem c4_phone_rule (env : Env) (x : BookingFormInput)
    (hhp : jsTrim x.honeypotValue = [])
    (hreq : requiredMissing x = false)
    (hem : isValidEmail x.email = true) :
    validateFormData env x = .Invalid .BadPhone ↔
      (x.phone.filter Char.isDigit).length < 10 := by
  have hv : validateFormData env x =
      if !(isValidPhone x.phone) then .Invalid .BadPhone
      else if dateIsPast env x.date then .Invalid .PastDate
      else .Valid := by
    simp [validateFormData, hhp, hreq, hem]
  by_cases hp : (x.phone.filter Char.isDigit).length < 10
  · have hf : isValidPhone x.phone = false := by
      simp only [isValidPhone, decide_eq_false_iff_not]
      omega
    simp [hv, hf, hp]
  · have ht : isValidPhone x.phone = true := by
      simp only [isValidPhone, decide_eq_true_eq]
      omega
    rw [hv, ht]
    by_cases hd : dateIsPast env x.date <;> simp [hd, hp]

/-- C4 witness: the five-digit phone `"12345"` on an otherwise valid
submission yields `Invalid BadPhone` from `validateFormData`. -/
theorem c4_phone_rule_witness :
    validateFormData envBase { validBase with phone := "12345".toList }
      = .Invalid .BadPhone :=
  (c4_phone_rule envBase { validBase with phone := "12345".toList }
    (by decide) (by decide) (by decide)).mpr (by decide)

/-- C6: on any invalid result the submit handler performs exactly one
immediate error status display — no delay, no field reset, sequencer
back in `Idle` with the fields untouched; the reset of the form's field
values happens only on the success path, after the awaited simulated
send. -/
theorem c6_sequencer (env : Env) (x : BookingFormInput) :
    ((∃ r, validateFormData env x = .Invalid r) →
      handleFormSubmit env x = [.status true]
      ∧ fieldsAfter x (handleFormSubmit env x) = x
      ∧ phaseAfter (handleFormSubmit env x) = .Idle)
  ∧ (validateFormData env x = .Valid →
      handleFormSubmit env x =
        [.status false, .sleep 600, .status false, .reset, .setDateMin,
         .scheduleClear 5000]
      ∧ fieldsAfter x (handleFormSubmit env x) = blankInput
      ∧ phaseAfter (handleFormSubmit env x) = .Sent)
  ∧ (Eff.reset ∈ handleFormSubmit env x →
      validateFormData env x = .Valid) := by
  refine ⟨?_, ?_, ?_⟩
  · rintro ⟨r, hr⟩
    refine ⟨?_, ?_, ?_⟩ <;> simp [handleFormSubmit, hr, fieldsAfter, phaseAfter]
  · intro hv
    refine ⟨?_, ?_, ?_⟩ <;>
      simp [handleFormSubmit, hv, fieldsAfter, phaseAfter, blankInput]
  · intro hmem
    cases hv : validateFormData env x with
    | Valid => rfl
    | Invalid r => simp [handleFormSubmit, hv] at hmem

/-- C6 witness: for the spam submission the handler emits exactly the
one immediate error status and leaves the field values as they were,
the sequencer remaining in `Idle`. -/
theorem c6_sequencer_witness :
    handleFormSubmit envBase { validBase with honeypotValue := "x".toList }
      = [.status true]
    ∧ fieldsAfter { validBase with honeypotValue := "x".toList }
        (handleFormSubmit envBase { validBase with honeypotValue := "x".toList })
      = { validBase with honeypotValue := "x".toList }
    ∧ phaseAfter
        (handleFormSubmit envBase { validBase with honeypotValue := "x".toList })
      = .Idle :=
  (c6_sequencer envBase { validBase with honeypotValue := "x".toList }).1
    ⟨.Spam, by decide⟩

lemma advance_iterate (n : ℕ) :
    ∀ k i, i < n → (advance n)^[k] i = (i + k) % n := by
  intro k
  induction k with
  | zero => intro i hi; simp [Nat.mod_eq_of_lt hi]
  | succ k ih =>
    intro i hi
    rw [Function.iterate_succ_apply', ih i hi]
    simp [advance, Nat.mod_add_mod, Nat.add_assoc]

/-- C7: one auto-advance step is `(pageIndex + 1) % pageCount`, the
last page wraps to page 0, and `pageCount` successive advances are the
identity on any valid page index. -/
theorem c7_advance_cycles (n : ℕ) (hn : 1 ≤ n) (i : ℕ) (hi : i < n) :
    advance n i = (i + 1) % n
  ∧ advance n (n - 1) = 0
  ∧ (advance n)^[n] i = i := by
  refine ⟨rfl, ?_, ?_⟩
  · show (n - 1 + 1) % n = 0
    rw [Nat.sub_add_cancel hn, Nat.mod_self]
  · rw [advance_iterate n n i hi, Nat.add_mod_right, Nat.mod_eq_of_lt hi]

/-- C7 witness: with three pages, advancing from the last page index 2
wraps to 0 and three advances return to 2. -/
theorem c7_advance_cycles_witness :
    advance 3 2 = (2 + 1) % 3
  ∧ advance 3 (3 - 1) = 0
  ∧ (advance 3)^[3] 2 = 2 :=
  c7_advance_cycles 3 (by decide) 2 (by decide)

/-- C8: the track offset is `-i * (100 / itemsPerPage)` percent, hence
-100/3 for page 1 at three items per page and -200 for page 2 at one
item per page. -/
theorem c8_page_offset (i p : ℕ) (hp : p = 1 ∨ p = 3) :
    pageOffsetPercent i p = -(i : ℚ) * (100 / (p : ℚ))
  ∧ pageOffsetPercent 1 3 = -100 / 3
  ∧ pageOffsetPercent 2 1 = -200 := by
  refine ⟨?_, by norm_num [pageOffsetPercent], by norm_num [pageOffsetPercent]⟩
  simp only [pageOffsetPercent]
  ring

/-- C8 witness: page 1 at three items per page sits at -100/3 percent. -/
theorem c8_page_offset_witness :
    pageOffsetPercent 1 3 = -(1 : ℚ) * (100 / (3 : ℚ)) :=
  (c8_page_offset 1 3 (Or.inr rfl)).1

/-- C9: the duplicate-timer defect.  The first pointer-enter does
suspend the stored interval, but the intervals started on pointer-exit
are never cleared: after enter–leave–enter the pointer is hovering
while one auto-advance interval is still firing, contradicting the
claim that auto-advance never fires during hover. -/
theorem c9_hover_defect :
    activeTimerCount (hoverRun carouselInit [.enter]) = 0
  ∧ (hoverRun carouselInit [.enter, .leave, .enter]).hover = true
  ∧ activeTimerCount (hoverRun carouselInit [.enter, .leave, .enter]) = 1 := by
  refine ⟨?_, ?_, ?_⟩
  · decide
  · decide
  · decide

end Baral
